import Mathlib

/-!
Shallow embedding of the snow-flow cleanup scripts
(`src/scripts/remove_flow_methods.py` and `src/scripts/final_flow_cleanup.py`).

Source buffers are modelled as `List Char`.  The Python `remove_method`
function (declaration regex search, brace-balancing scan with string and
escape tracking, trailing-whitespace skip and marker insertion) is embedded
definition by definition; the module-level loop over `methods_to_remove` and
the sequence of regex substitutions are embedded as `removeAll`,
`applyPatternRules` and `transform`.  The per-call console messages of
`remove_method` are the program's only per-block diagnostics and are
modelled by the `Diag` type.
-/

namespace SnowFlow

/-- Character constants (written via code points so buffers stay readable). -/
def lb : Char := Char.ofNat 123

/-- Closing curly brace. -/
def rb : Char := Char.ofNat 125

/-- Single quote. -/
def q1 : Char := Char.ofNat 39

/-- Double quote. -/
def dq : Char := Char.ofNat 34

/-- Backquote (template-string delimiter). -/
def bq : Char := Char.ofNat 96

/-- Backslash. -/
def bsC : Char := Char.ofNat 92

/-- Newline. -/
def nlC : Char := Char.ofNat 10

/-- Carriage return. -/
def crC : Char := Char.ofNat 13

/-- Horizontal tab. -/
def tabC : Char := Char.ofNat 9

/-- Vertical tab (Python regex whitespace). -/
def vtC : Char := Char.ofNat 11

/-- Form feed (Python regex whitespace). -/
def ffC : Char := Char.ofNat 12

/-- The character class of Python's regex whitespace escape (ASCII part). -/
def pySpace (c : Char) : Bool :=
  decide (c = ' ' ∨ c = tabC ∨ c = nlC ∨ c = crC ∨ c = vtC ∨ c = ffC)

/-- The whitespace set of `remove_method`'s trailing-whitespace loop
(`content[end_pos] in [' ', '\n', '\r', '\t']`, line 59). -/
def isTrailWs (c : Char) : Bool :=
  decide (c = ' ' ∨ c = nlC ∨ c = crC ∨ c = tabC)

/-! ### Declaration locator

Embedding of `re.search(rf'^\s*(?:private\s+)?(?:async\s+)?NAME\s*\([^{]*\{',
content, re.MULTILINE)` from `remove_method` (line 22/25).  The pattern is
deterministic except for the two optional modifier groups, which backtrack
at group level; greedy whitespace never needs to backtrack because every
continuation starts with a non-whitespace character. -/

/-- Drop a leading run of regex whitespace (greedy `\s*`). -/
def dropWS : List Char → List Char
  | [] => []
  | c :: r => if pySpace c then dropWS r else c :: r

/-- Match a literal word as a prefix, returning the remaining suffix. -/
def dropPrefixCl : List Char → List Char → Option (List Char)
  | [], s => some s
  | _ :: _, [] => none
  | p :: ps, c :: cs => if c = p then dropPrefixCl ps cs else none

/-- `[^{]*\{` : skip everything up to and including the first opening brace. -/
def scanToBrace : List Char → Option (List Char)
  | [] => none
  | c :: r => if c = lb then some r else scanToBrace r

/-- `NAME\s*\([^{]*\{` : the tail of the declaration pattern. -/
def matchNameTail (name : List Char) (s : List Char) : Option (List Char) :=
  match dropPrefixCl name s with
  | none => none
  | some s1 =>
    match dropWS s1 with
    | c :: r => if c = '(' then scanToBrace r else none
    | [] => none

/-- `KEYWORD\s+` : an optional-modifier body (keyword then at least one
whitespace character, greedily extended). -/
def matchMod (kw : List Char) (s : List Char) : Option (List Char) :=
  match dropPrefixCl kw s with
  | none => none
  | some [] => none
  | some (c :: r) => if pySpace c then some (dropWS r) else none

/-- `(?:async\s+)?NAME...` with group-level backtracking. -/
def matchAsyncOpt (name : List Char) (s : List Char) : Option (List Char) :=
  match matchMod ("async".data) s with
  | some r =>
    match matchNameTail name r with
    | some r2 => some r2
    | none => matchNameTail name s
  | none => matchNameTail name s

/-- `\s*(?:private\s+)?(?:async\s+)?NAME\s*\([^{]*\{` attempted at one
position (the `^` anchor is checked by the caller). -/
def matchDeclAt (name : List Char) (s : List Char) : Option (List Char) :=
  let s0 := dropWS s
  match matchMod ("private".data) s0 with
  | some r =>
    match matchAsyncOpt name r with
    | some r2 => some r2
    | none => matchAsyncOpt name s0
  | none => matchAsyncOpt name s0

/-- `re.search` with `re.MULTILINE`: try every position that is the start of
the buffer or follows a newline, left to right; on success return
`(match.start, match.end)` where `match.end` is the index just past the
opening brace. -/
def findDeclAux (name : List Char) : List Char → Nat → Bool → Option (Nat × Nat)
  | [], _, _ => none
  | c :: rest, i, lineStart =>
    if lineStart then
      match matchDeclAt name (c :: rest) with
      | some r => some (i, i + ((c :: rest).length - r.length))
      | none => findDeclAux name rest (i + 1) (decide (c = nlC))
    else findDeclAux name rest (i + 1) (decide (c = nlC))

/-- Declaration search for one block name over the whole buffer. -/
def findDecl (name : List Char) (content : List Char) : Option (Nat × Nat) :=
  findDeclAux name content 0 true

/-! ### Balanced-span scanner

Embedding of the `while i < len(content)` loop of `remove_method`
(lines 33-68): state `brace_count`, `in_string` (a quote character or
nothing) and `escape_next`, updated by one `elif` chain per character. -/

/-- Result of one loop iteration: either continue with updated state, or
stop because `brace_count` returned to zero at a closing brace. -/
inductive StepRes where
  | cont : Int → Option Char → Bool → StepRes
  | stop : StepRes
deriving DecidableEq

/-- The body of the scanning loop of `remove_method` for one character:
the `elif` chain over `escape_next`, backslash, quote opening, quote
closing, and brace counting (lines 41-54). -/
def scanStep (c : Char) (bc : Int) (inStr : Option Char) (esc : Bool) : StepRes :=
  if esc then .cont bc inStr false
  else if c = bsC then .cont bc inStr true
  else if (c = dq ∨ c = q1 ∨ c = bq) ∧ inStr = none then .cont bc (some c) false
  else if some c = inStr then .cont bc none false
  else if inStr = none then
    if c = lb then .cont (bc + 1) none false
    else if c = rb then
      if bc - 1 = 0 then .stop else .cont (bc - 1) none false
    else .cont bc none false
  else .cont bc inStr esc

/-- The scanning loop itself: walk the suffix of the buffer starting at the
opening brace (absolute index `i`); return `some (i + 1)` at the closing
brace where the count returns to zero, `none` at end of buffer. -/
def scanAux : List Char → Nat → Int → Option Char → Bool → Option Nat
  | [], _, _, _, _ => none
  | c :: rest, i, bc, inStr, esc =>
    match scanStep c bc inStr esc with
    | .stop => some (i + 1)
    | .cont bc2 s2 e2 => scanAux rest (i + 1) bc2 s2 e2

/-! ### Trailing whitespace skip and the excision itself -/

/-- The `while ... content[end_pos] in [' ', '\n', '\r', '\t']` loop
(lines 59-60), on the suffix starting at `end_pos`. -/
def skipWsAux : List Char → Nat → Nat
  | [], p => p
  | c :: r, p => if isTrailWs c then skipWsAux r (p + 1) else p

/-- Absolute-index form of the trailing-whitespace skip. -/
def skipWs (content : List Char) (p : Nat) : Nat :=
  skipWsAux (content.drop p) p

/-- Length of the leading `isTrailWs` run of a list. -/
def wsRunLen : List Char → Nat
  | [] => 0
  | c :: r => if isTrailWs c then wsRunLen r + 1 else 0

/-- The replacement text inserted for an excised method (line 63). -/
def removedMarker (name : List Char) : List Char :=
  "  // REMOVED: ".data ++ name ++ " method - flows/workflows are deprecated\n".data

/-- Count newlines (used by the `Removed method ... (lines a-b)` message). -/
def countNl (l : List Char) : Nat := l.countP (fun c => c == nlC)

/-- The three console messages `remove_method` can print: these are the
program's only per-block diagnostics. -/
inductive Diag where
  | methodNotFound : List Char → Diag
  | methodRemoved : List Char → Nat → Nat → Diag
  | unbalancedEnd : List Char → Diag
deriving DecidableEq

/-- Embedding of `remove_method(content, method_name)` (lines 19-71):
locate the declaration, scan for the balanced closing brace, skip trailing
whitespace, splice in the marker; on a missing declaration or an
unbalanced scan return the buffer unchanged with the corresponding
diagnostic. -/
def remove_method (content : List Char) (method_name : List Char) :
    List Char × Diag :=
  match findDecl method_name content with
  | none => (content, Diag.methodNotFound method_name)
  | some (start_pos, match_end) =>
    match scanAux (content.drop (match_end - 1)) (match_end - 1) 0 none false with
    | none => (content, Diag.unbalancedEnd method_name)
    | some closeEnd =>
      let end_pos := skipWs content closeEnd
      (content.take start_pos ++ removedMarker method_name ++ content.drop end_pos,
       Diag.methodRemoved method_name
         (countNl (content.take start_pos) + 1)
         (countNl (content.take end_pos) + 1))

/-- The script's fixed list of methods to remove (lines 10-16). -/
def methods_to_remove : List (List Char) :=
  ["deployFlow".data, "validateFlowDefinition".data,
   "createBusinessRuleFallback".data, "deployLinkedArtifact".data,
   "getTriggerWhen".data]

/-- The `for method in methods_to_remove: content = remove_method(...)`
loop (lines 74-75), generalized over the list of block names and collecting
the per-block diagnostics in order. -/
def removeAll (content : List Char) : List (List Char) → List Char × List Diag
  | [] => (content, [])
  | n :: ns =>
    let r := remove_method content n
    let rest := removeAll r.1 ns
    (rest.1, r.2 :: rest.2)

/-! ### Pattern rule set

Embedding of the sequence of `re.sub`/`str.replace` calls
(`remove_flow_methods.py` lines 78-95).  Each specific regex is embedded as
a deterministic matcher at one position (returning the number of characters
consumed), and `substAll` replays Python's `re.sub`: scan positions left to
right, replace each non-overlapping leftmost match, continue after it.
Every pattern here consumes at least one character on success. -/

/-- Replace every non-overlapping leftmost match of `m` by `repl`.  The
fuel argument (initially the buffer length) makes the recursion structural;
each step consumes at least one character, so the fuel never runs out. -/
def substAllFuel (m : List Char → Option Nat) (repl : List Char) :
    Nat → List Char → List Char
  | 0, s => s
  | _ + 1, [] => []
  | fuel + 1, c :: rest =>
    match m (c :: rest) with
    | some (n + 1) => repl ++ substAllFuel m repl fuel (rest.drop n)
    | _ => c :: substAllFuel m repl fuel rest

/-- `re.sub(pattern, repl, s)` for a position matcher `m`. -/
def substAll (m : List Char → Option Nat) (repl : List Char) (s : List Char) :
    List Char :=
  substAllFuel m repl s.length s

/-- Surround a word with single quotes (used to build pattern literals). -/
def quoted (w : List Char) : List Char := q1 :: (w ++ [q1])

/-- Match a literal, returning its length and the rest. -/
def litM (w : List Char) (s : List Char) : Option (Nat × List Char) :=
  (dropPrefixCl w s).map (fun r => (w.length, r))

/-- Greedy `\s*`, returning the run length and the rest. -/
def wsM : List Char → Nat × List Char
  | [] => (0, [])
  | c :: r =>
    if pySpace c then
      let p := wsM r
      (p.1 + 1, p.2)
    else (0, c :: r)

/-- Greedy `\s+` (at least one whitespace character). -/
def ws1M (s : List Char) : Option (Nat × List Char) :=
  match s with
  | [] => none
  | c :: r =>
    if pySpace c then
      let p := wsM r
      some (p.1 + 1, p.2)
    else none

/-- Greedy optional single character (`,?`, `;?`, `\n?`). -/
def optCharM (c : Char) : List Char → Nat × List Char
  | [] => (0, [])
  | d :: r => if d = c then (1, r) else (0, d :: r)

/-- `[^t]*t` : consume up to and including the first occurrence of `t`. -/
def upToCharM (t : Char) : List Char → Option (Nat × List Char)
  | [] => none
  | c :: r =>
    if c = t then some (1, r)
    else (upToCharM t r).map (fun p => (p.1 + 1, p.2))

/-- Lazy `[^bad]*?STOP` : the shortest bad-free run followed by the literal
`stop`, consumed together. -/
def lazyUntilLit (bad : Char) (stop : List Char) : List Char → Option (Nat × List Char)
  | [] => litM stop []
  | c :: r =>
    match litM stop (c :: r) with
    | some p => some p
    | none =>
      if c = bad then none
      else (lazyUntilLit bad stop r).map (fun p => (p.1 + 1, p.2))

/-- `.` without DOTALL: any single character except a newline. -/
def anyNotNlM : List Char → Option (Nat × List Char)
  | [] => none
  | c :: r => if c = nlC then none else some (1, r)

/-- Line 78 pattern: quoted `widget`, `workflow`, `application` list entry. -/
def rule78M (s : List Char) : Option Nat := do
  let (a, s) ← litM (quoted ("widget".data) ++ [',']) s
  let (b, s) := wsM s
  let (c, s) ← litM (quoted ("workflow".data) ++ [',']) s
  let (d, s) := wsM s
  let (e, _) ← litM (quoted ("application".data)) s
  pure (a + b + c + d + e)

/-- Line 79 pattern: the same list entry with double quotes. -/
def rule79M (s : List Char) : Option Nat := do
  let (a, s) ← litM ([dq] ++ "widget".data ++ [dq, ',']) s
  let (b, s) := wsM s
  let (c, s) ← litM ([dq] ++ "workflow".data ++ [dq, ',']) s
  let (d, s) := wsM s
  let (e, _) ← litM ([dq] ++ "application".data ++ [dq]) s
  pure (a + b + c + d + e)

/-- Line 82 pattern: whitespace, `'flow': 'sys_hub_flow'`, optional comma
and newline. -/
def rule82M (s : List Char) : Option Nat := do
  let (a, s) := wsM s
  let (b, s) ← litM (quoted ("flow".data) ++ [':']) s
  let (c, s) := wsM s
  let (d, s) ← litM (quoted ("sys_hub_flow".data)) s
  let (e, s) := optCharM ',' s
  let (f, _) := optCharM nlC s
  pure (a + b + c + d + e + f)

/-- Line 83 pattern: whitespace, `'workflow': 'wf_workflow'`, optional comma
and newline. -/
def rule83M (s : List Char) : Option Nat := do
  let (a, s) := wsM s
  let (b, s) ← litM (quoted ("workflow".data) ++ [':']) s
  let (c, s) := wsM s
  let (d, s) ← litM (quoted ("wf_workflow".data)) s
  let (e, s) := optCharM ',' s
  let (f, _) := optCharM nlC s
  pure (a + b + c + d + e + f)

/-- Line 86 pattern: `case` whitespace `'subflow':`, then the lazy
brace-free run up to `break;`. -/
def rule86M (s : List Char) : Option Nat := do
  let (a, s) ← litM ("case".data) s
  let (b, s) ← ws1M s
  let (c, s) ← litM (quoted ("subflow".data) ++ [':']) s
  let (d, _) ← lazyUntilLit rb ("break;".data) s
  pure (a + b + c + d)

/-- Line 87 pattern: `flowType === ` then any character, `subflow`, any
character (the dots of the original pattern, no DOTALL). -/
def rule87M (s : List Char) : Option Nat := do
  let (a, s) ← litM ("flowType === ".data) s
  let (b, s) ← anyNotNlM s
  let (c, s) ← litM ("subflow".data) s
  let (d, _) ← anyNotNlM s
  pure (a + b + c + d)

/-- Line 90 pattern: `result = await this.deployFlow(`, up to the closing
parenthesis, optional semicolon. -/
def rule90M (s : List Char) : Option Nat := do
  let (a, s) ← litM ("result = await this.deployFlow(".data) s
  let (b, s) ← upToCharM ')' s
  let (c, _) := optCharM ';' s
  pure (a + b + c)

/-- Line 91 pattern: `await this.deployFlow(`, up to the closing
parenthesis, optional semicolon. -/
def rule91M (s : List Char) : Option Nat := do
  let (a, s) ← litM ("await this.deployFlow(".data) s
  let (b, s) ← upToCharM ')' s
  let (c, _) := optCharM ';' s
  pure (a + b + c)

/-- A plain-substring matcher (Python `str.replace`, lines 94-95). -/
def litOnlyM (w : List Char) (s : List Char) : Option Nat :=
  (dropPrefixCl w s).map (fun _ => w.length)

/-- The line 94 source text `widgets, workflows, applications`. -/
def p94 : List Char := "widgets, workflows, applications".data

/-- The line 94 replacement `widgets, applications`. -/
def r94 : List Char := "widgets, applications".data

/-- The line 95 source text, the line 94 text in parentheses. -/
def p95 : List Char := '(' :: (p94 ++ [')'])

/-- The line 95 replacement. -/
def r95 : List Char := '(' :: (r94 ++ [')'])

/-- Lines 78-94 of the substitution section, applied in program order,
each substitution operating on the result of the previous one. -/
def rulesThrough94 (s : List Char) : List Char :=
  let s := substAll rule78M (quoted ("widget".data) ++ [',', ' '] ++ quoted ("application".data)) s
  let s := substAll rule79M ([dq] ++ "widget".data ++ [dq, ',', ' ', dq] ++ "application".data ++ [dq]) s
  let s := substAll rule82M [] s
  let s := substAll rule83M [] s
  let s := substAll rule86M [] s
  let s := substAll rule87M ("false".data) s
  let s := substAll rule90M ("// Flow deployment removed".data) s
  let s := substAll rule91M ("// Flow deployment removed".data) s
  let s := substAll (litOnlyM p94) r94 s
  s

/-- The whole substitution section (lines 78-95): line 95's replace runs on
the buffer produced by all the preceding substitutions. -/
def applyPatternRules (s : List Char) : List Char :=
  substAll (litOnlyM p95) r95 (rulesThrough94 s)

/-- The whole transformation of `remove_flow_methods.py`, parametrized by
the list of block names: the removal loop followed by the substitution
section; diagnostics are those of the removal loop (the substitution
section prints nothing per match). -/
def transform (content : List Char) (blockNames : List (List Char)) :
    List Char × List Diag :=
  let r := removeAll content blockNames
  (applyPatternRules r.1, r.2)

/-! ### The second script

Embedding of `final_flow_cleanup.py` (lines 10-27): a further sequence of
`re.sub` calls over the same file, run after `remove_flow_methods.py`. -/

/-- Length of the maximal leading run free of closing braces (the greedy
`[^}]*`). -/
def nonBraceLen : List Char → Nat
  | [] => 0
  | c :: r => if c = rb then 0 else nonBraceLen r + 1

/-- Greedy `[^}]*` followed by a continuation `k`, with regex backtracking:
try the longest brace-free prefix first, then shorter ones. -/
def greedyBack (k : List Char → Option (Nat × List Char)) (s : List Char) :
    Nat → Option (Nat × List Char)
  | 0 => k s
  | j + 1 =>
    match k (s.drop (j + 1)) with
    | some p => some (j + 1 + p.1, p.2)
    | none => greedyBack k s j

/-- `[^}]*` then continuation, greedy with backtracking. -/
def greedyNonBraceThen (k : List Char → Option (Nat × List Char))
    (s : List Char) : Option (Nat × List Char) :=
  greedyBack k s (nonBraceLen s)

/-- Line 10 pattern: `private generateFlowLogicXML(`, up to the first `{`,
then three `[^}]*\}` groups. -/
def ruleF10M (s : List Char) : Option Nat := do
  let (a, s) ← litM ("private generateFlowLogicXML(".data) s
  let (b, s) ← upToCharM lb s
  let (c, s) ← upToCharM rb s
  let (d, s) ← upToCharM rb s
  let (e, _) ← upToCharM rb s
  pure (a + b + c + d + e)

/-- Line 15 pattern: `// Flow XML`, greedy brace-free run, `sys_hub_flow`,
lazy brace-free run, `</update_set_member>`. -/
def ruleF15M (s : List Char) : Option Nat := do
  let (a, s) ← litM ("// Flow XML".data) s
  let (b, _) ← greedyNonBraceThen (fun s2 => do
    let (x, s3) ← litM ("sys_hub_flow".data) s2
    let (y, s4) ← lazyUntilLit rb ("</update_set_member>".data) s3
    pure (x + y, s4)) s
  pure (a + b)

/-- Line 19 pattern: the `const logicXml = ...` call statement. -/
def ruleF19M (s : List Char) : Option Nat := do
  let (a, s) ← litM ("const logicXml = this.generateFlowLogicXML(".data) s
  let (b, s) ← upToCharM ')' s
  let (c, _) ← litM ([';']) s
  pure (a + b + c)

/-- Line 20 pattern: the `xmlParts.push(logicXml);` statement. -/
def ruleF20M (s : List Char) : Option Nat :=
  litOnlyM ("xmlParts.push(logicXml);".data) s

/-- Line 23 pattern: `case 'flow':` then the lazy brace-free run up to
`break;`. -/
def ruleF23M (s : List Char) : Option Nat := do
  let (a, s) ← litM ("case ".data ++ quoted ("flow".data) ++ [':']) s
  let (b, _) ← lazyUntilLit rb ("break;".data) s
  pure (a + b)

/-- Line 24 pattern: `case 'subflow':` then the lazy brace-free run up to
`break;`. -/
def ruleF24M (s : List Char) : Option Nat := do
  let (a, s) ← litM ("case ".data ++ quoted ("subflow".data) ++ [':']) s
  let (b, _) ← lazyUntilLit rb ("break;".data) s
  pure (a + b)

/-- Line 27 pattern: the `} else if (args.type === 'workflow') {` header
then `[^}]*\}`. -/
def ruleF27M (s : List Char) : Option Nat := do
  let (a, s) ← litM ([rb] ++ " else if (args.type === ".data ++
    quoted ("workflow".data) ++ ") ".data ++ [lb]) s
  let (b, _) ← upToCharM rb s
  pure (a + b)

/-- The whole of `final_flow_cleanup.py`: its substitutions in program
order, each on the result of the previous one. -/
def finalCleanup (s : List Char) : List Char :=
  let s := substAll ruleF10M ("// generateFlowLogicXML method removed - flows deprecated".data) s
  let s := substAll ruleF15M ("// Flow XML generation removed - flows deprecated".data) s
  let s := substAll ruleF19M ("// Flow logic XML removed".data) s
  let s := substAll ruleF20M ("// Flow logic push removed".data) s
  let s := substAll ruleF23M ("// Flow case removed".data) s
  let s := substAll ruleF24M ("// Subflow case removed".data) s
  let s := substAll ruleF27M ("// Workflow validation removed".data) s
  s

/-- Whether `pat` occurs as a substring. -/
def occursIn (pat : List Char) : List Char → Bool
  | [] => (dropPrefixCl pat []).isSome
  | c :: r => (dropPrefixCl pat (c :: r)).isSome || occursIn pat r

/-- Whether `pat` occurs at offset `i`. -/
def occursAt (pat s : List Char) (i : Nat) : Bool :=
  (dropPrefixCl pat (s.drop i)).isSome

/-! ### Concrete buffers used by the verification -/

/-- The block name `foo`. -/
def fooName : List Char := "foo".data

/-- The block name `bar`. -/
def barName : List Char := "bar".data

/-- The spec scenario input, verbatim:
`function foo() { return '}'; } function bar() {}`. -/
def c1funBuf : List Char :=
  "function foo() \x7b return ".data ++ [q1, rb, q1] ++
  "; \x7d function bar() \x7b\x7d".data

/-- The scenario input without the `function` keyword:
`foo() { return '}'; } function bar() {}`. -/
def c1Buf : List Char :=
  "foo() \x7b return ".data ++ [q1, rb, q1] ++
  "; \x7d function bar() \x7b\x7d".data

/-- A buffer whose only closing brace follows a backslash in code state:
`foo() {\} x`. -/
def c2Buf : List Char := "foo() \x7b".data ++ [bsC, rb] ++ " x".data

/-- A buffer with two overlapping pattern matches for the two plain
replaces: `(widgets, workflows, applications)`. -/
def c3Buf : List Char := "(widgets, workflows, applications)".data

/-- A block followed by two spaces and more text: `foo() {}  X`. -/
def c5Buf : List Char := "foo() \x7b\x7d  X".data

/-- A block whose brace is never closed: `foo() { x`. -/
def c6Buf : List Char := "foo() \x7b x".data

/-- A buffer containing `bar` but no `foo` declaration: `bar() {}`. -/
def c7Buf : List Char := "bar() \x7b\x7d".data

/-- A two-line buffer with a removable block: `foo() { x }\nbar`. -/
def c8Buf : List Char := "foo() \x7b x \x7d\nbar".data

/-- A declaration with a destructuring parameter: `foo({a}) { body }`. -/
def c10Buf : List Char := "foo(\x7ba\x7d) \x7b body \x7d".data

/-! ## Theorems -/

/-! ### Helper lemmas about the trailing-whitespace skip -/

theorem skipWsAux_eq_wsRunLen (l : List Char) : ∀ p, skipWsAux l p = p + wsRunLen l := by
  induction l with
  | nil => intro p; simp [skipWsAux, wsRunLen]
  | cons c r ih =>
    intro p
    by_cases h : isTrailWs c = true
    · simp [skipWsAux, wsRunLen, h, ih]
      omega
    · simp [skipWsAux, wsRunLen, h]

theorem wsRunLen_take_all (l : List Char) :
    ((l.take (wsRunLen l)).all isTrailWs) = true := by
  induction l with
  | nil => rfl
  | cons c r ih =>
    by_cases h : isTrailWs c = true
    · simpa [wsRunLen, h, List.take_succ_cons] using ih
    · simp [wsRunLen, h]

theorem wsRunLen_drop_head (l : List Char) :
    ∀ c r, l.drop (wsRunLen l) = c :: r → isTrailWs c = false := by
  induction l with
  | nil => intro c r h; simp at h
  | cons d t ih =>
    intro c r h
    by_cases hd : isTrailWs d = true
    · rw [wsRunLen] at h
      simp [hd] at h
      exact ih c r h
    · rw [wsRunLen] at h
      simp [hd] at h
      rw [← h.1]
      simp [hd]

/-! ### Claim theorems -/

/-- C1 (counterexample): on the spec's literal scenario buffer
`function foo() { return '}'; } function bar() {}` with blockNames =
`["foo"]`, the transform removes nothing at all: the declaration pattern
admits only optional `private`/`async` modifiers before the name, so
`function foo` is not matched, a not-found diagnostic is produced, and the
buffer comes back unchanged — contradicting the claimed excision of
`function foo() { return '}'; }`. -/
theorem C1_counterexample :
    transform c1funBuf [fooName] = (c1funBuf, [Diag.methodNotFound fooName]) := by
  decide

/-- C1 (amended): on the same scenario with the declaration written in the
form the locator accepts, `foo() { return '}'; } function bar() {}`, the
transform removes `foo() { return '}'; }` together with the single space
after the closing brace — the balanced scan stops at the real closing
brace, not the one inside the single-quoted string — inserts the removal
marker, and leaves `function bar() {}` intact. -/
theorem C1_amended :
    transform c1Buf [fooName] =
      (removedMarker fooName ++ "function bar() \x7b\x7d".data,
       [Diag.methodRemoved fooName 1 1]) := by
  decide

/-- C2 (counterexample): a backslash met in code state does escape: in
`foo() {\} x` the only closing brace sits immediately after a backslash
outside any string, the scanner skips it, reaches end of buffer with
nonzero depth and gives up — whereas the claim says that brace is still
classified as semantically significant, which would have closed the block. -/
theorem C2_counterexample :
    remove_method c2Buf fooName = (c2Buf, Diag.unbalancedEnd fooName) ∧
    c2Buf.drop 7 = [bsC, rb, ' ', 'x'] := by
  constructor
  · decide
  · decide

/-- C2 (amended): a backslash encountered in code state (no string open, no
pending escape) sets the escape flag, so the immediately following
character is consumed with no effect at all: it is never classified as a
brace or a quote, and the scan continues two characters later in code
state with the depth unchanged. -/
theorem C2_amended (c : Char) (rest : List Char) (i : Nat) (bc : Int) :
    scanAux (bsC :: c :: rest) i bc none false =
      scanAux rest (i + 1 + 1) bc none false := by
  rfl

/-- C5 (counterexample): on `foo() {}  X` the removed span does not end at
the closing brace (offset 8): the two spaces after the brace are consumed
as well, so the output is the marker followed directly by `X`, not the
claimed `buffer[0:start] + marker + buffer[8:]`. -/
theorem C5_counterexample :
    (remove_method c5Buf fooName).1 = removedMarker fooName ++ ['X'] ∧
    scanAux (c5Buf.drop 6) 6 0 none false = some 8 ∧
    removedMarker fooName ++ ['X'] ≠
      c5Buf.take 0 ++ removedMarker fooName ++ c5Buf.drop 8 := by
  refine ⟨by decide, by decide, by decide⟩

/-- C5 (amended): for every successful excision the removed span ends at
the closing-brace offset plus one, *extended by exactly the maximal run of
spaces, newlines, carriage returns and tabs that follows*; every character
of that run is such whitespace, the first preserved character is not, and
the output is the prefix, the marker, and the buffer from the end of that
whitespace run onward. -/
theorem C5_amended (content name : List Char) (s e p : Nat)
    (h1 : findDecl name content = some (s, e))
    (h2 : scanAux (content.drop (e - 1)) (e - 1) 0 none false = some p) :
    remove_method content name =
      (content.take s ++ removedMarker name ++
         content.drop (p + wsRunLen (content.drop p)),
       Diag.methodRemoved name (countNl (content.take s) + 1)
         (countNl (content.take (p + wsRunLen (content.drop p))) + 1)) ∧
    ((content.drop p).take (wsRunLen (content.drop p))).all isTrailWs = true ∧
    (∀ c r, (content.drop p).drop (wsRunLen (content.drop p)) = c :: r →
      isTrailWs c = false) := by
  refine ⟨?_, wsRunLen_take_all _, wsRunLen_drop_head _⟩
  simp [remove_method, h1, h2, skipWs, skipWsAux_eq_wsRunLen]

/-- C5 (witness): the amended theorem evaluated on `foo() {}  X`, where the
declaration is found at offsets (0, 7) and the balanced scan ends at 8. -/
theorem C5_witness :
    remove_method c5Buf fooName =
      (c5Buf.take 0 ++ removedMarker fooName ++
         c5Buf.drop (8 + wsRunLen (c5Buf.drop 8)),
       Diag.methodRemoved fooName (countNl (c5Buf.take 0) + 1)
         (countNl (c5Buf.take (8 + wsRunLen (c5Buf.drop 8))) + 1)) :=
  (C5_amended c5Buf fooName 0 7 8 (by decide) (by decide)).1

/-- C10: on `foo({a}) { body }` the declaration pattern stops at the first
opening brace after the parenthesis — here the destructuring brace inside
the parameter list — so the balanced scan starts at offset 4 and the
removed span ends at offset 7, the match of that inner brace, well before
the method's true closing brace at offset 16: the output keeps the dangling
`) { body }` tail. -/
theorem C10_param_brace :
    remove_method c10Buf fooName =
      (removedMarker fooName ++ ") ".data ++ [lb] ++ " body ".data ++ [rb],
       Diag.methodRemoved fooName 1 1) ∧
    findDecl fooName c10Buf = some (0, 5) ∧
    scanAux (c10Buf.drop 4) 4 0 none false = some 7 ∧
    c10Buf.get? 16 = some rb ∧ (7 : Nat) < 16 := by
  refine ⟨by decide, by decide, by decide, by decide, by decide⟩

/-- C3 (counterexample): rules are not evaluated against the original
buffer.  On `(widgets, workflows, applications)` the line 95 pattern occurs
in the original buffer, but in the pipeline line 95's replace runs on the
output of lines 78-94 — where the pattern no longer occurs, the earlier
plain replace having already rewritten it — so its match set is not
determined by the original buffer's content. -/
theorem C3_counterexample :
    occursIn p95 c3Buf = true ∧
    occursIn p95 (rulesThrough94 c3Buf) = false ∧
    applyPatternRules c3Buf = substAll (litOnlyM p95) r95 (rulesThrough94 c3Buf) := by
  refine ⟨by decide, by decide, rfl⟩

/-- C3 (amended): each rule is evaluated against the intermediate buffer
produced by all earlier rules, not against the original: on
`(widgets, workflows, applications)` the whole-buffer pattern of line 95
occurs in the original, yet the final output is exactly what lines 78-94
alone produce, line 95 contributing nothing because its pattern had
already been rewritten away. -/
theorem C3_amended :
    applyPatternRules c3Buf = '(' :: (r94 ++ [')']) ∧
    rulesThrough94 c3Buf = '(' :: (r94 ++ [')']) ∧
    occursIn p95 c3Buf = true := by
  refine ⟨by decide, by decide, by decide⟩

/-- C4 (counterexample): on `(widgets, workflows, applications)` the two
plain-replace rules match the original buffer on overlapping spans
([1, 33) inside [0, 34)), yet the transform reports no diagnostic at all —
not the claimed single OverlappingEdit — because the engine has no edit
planner and its only diagnostics are the per-block removal messages. -/
theorem C4_counterexample :
    occursAt p94 c3Buf 1 = true ∧
    occursAt p95 c3Buf 0 = true ∧
    (1 : Nat) < 0 + p95.length ∧ (0 : Nat) < 1 + p94.length ∧
    transform c3Buf [] = ('(' :: (r94 ++ [')']), []) := by
  refine ⟨by decide, by decide, by decide, by decide, by decide⟩

/-- C4 (amended): overlapping matches are resolved by sequential
rewriting, not by a planner: the earlier rule's substitution rewrites the
region, the later rule is evaluated on the rewritten buffer and simply
finds no match there, and no diagnostic of any kind is produced — the
output equals what the earlier rules alone produce. -/
theorem C4_amended :
    transform c3Buf [] = (rulesThrough94 c3Buf, []) ∧
    rulesThrough94 c3Buf ≠ c3Buf ∧
    occursIn p95 (rulesThrough94 c3Buf) = false := by
  refine ⟨by decide, by decide, by decide⟩

/-- C6: when the balanced scan hits end-of-buffer with nonzero depth, that
block's excision is skipped: the buffer passes through unchanged, the
unbalanced-end diagnostic (the `Could not find end of method` message) is
recorded, and the remaining block names are processed on the same buffer. -/
theorem C6_unbalanced_skip (content name : List Char) (ns : List (List Char))
    (s e : Nat)
    (h1 : findDecl name content = some (s, e))
    (h2 : scanAux (content.drop (e - 1)) (e - 1) 0 none false = none) :
    removeAll content (name :: ns) =
      ((removeAll content ns).1,
        Diag.unbalancedEnd name :: (removeAll content ns).2) := by
  simp [removeAll, remove_method, h1, h2]

/-- C6 (witness): on `foo() { x` the declaration is found but the brace is
never closed, so `foo` is skipped and `bar` is still looked up on the same
unchanged buffer. -/
theorem C6_witness :
    removeAll c6Buf [fooName, barName] =
      ((removeAll c6Buf [barName]).1,
        Diag.unbalancedEnd fooName :: (removeAll c6Buf [barName]).2) :=
  C6_unbalanced_skip c6Buf fooName [barName] 0 7 (by decide) (by decide)

/-- C7: when the locator finds no match for a requested block name, that
block is skipped with the buffer unchanged for it, and every other
directive — the removals of the remaining names and all the pattern rules —
is still applied to the buffer. -/
theorem C7_notfound_skip (content : List Char) (name : List Char)
    (ns : List (List Char))
    (h : findDecl name content = none) :
    transform content (name :: ns) =
      ((transform content ns).1,
        Diag.methodNotFound name :: (transform content ns).2) := by
  simp [transform, removeAll, remove_method, h]

/-- C7 (witness): `bar() {}` has no `foo` declaration, so excising
`["foo", "bar"]` behaves exactly like excising `["bar"]` plus a not-found
diagnostic for `foo`. -/
theorem C7_witness :
    transform c7Buf [fooName, barName] =
      ((transform c7Buf [barName]).1,
        Diag.methodNotFound fooName :: (transform c7Buf [barName]).2) :=
  C7_notfound_skip c7Buf fooName [barName] (by decide)

/-- Helper: when no requested name has a declaration in the buffer, the
removal pass returns the buffer unchanged and one not-found diagnostic per
name, in order. -/
theorem removeAll_all_notfound (content : List Char) :
    ∀ names : List (List Char),
      (∀ n ∈ names, findDecl n content = none) →
      removeAll content names = (content, names.map Diag.methodNotFound) := by
  intro names
  induction names with
  | nil => intro _; rfl
  | cons n ns ih =>
    intro h
    have hn : findDecl n content = none := h n (List.mem_cons_self n ns)
    have ihh := ih (fun m hm => h m (List.mem_cons_of_mem n hm))
    simp [removeAll, remove_method, hn, ihh]

/-- C8: the block-removal pass is idempotent on its own output: run again
with the same block names on a buffer in which those declarations no
longer occur, it reports not-found for every name and returns the buffer
unchanged; and for each of the script's five method names, the inserted
marker text (which contains the name) is itself never matched as a
declaration. -/
theorem C8_idempotent (content : List Char) (names : List (List Char))
    (h : ∀ n ∈ names, findDecl n content = none) :
    removeAll content names = (content, names.map Diag.methodNotFound) ∧
    ∀ n ∈ methods_to_remove, findDecl n (removedMarker n) = none :=
  ⟨removeAll_all_notfound content names h, by decide⟩

/-- C8 (witness): excise `foo` from `foo() { x }\nbar`, then run the
removal pass again on the result: the marker buffer comes back unchanged
with a single not-found diagnostic. -/
theorem C8_witness :
    removeAll (removeAll c8Buf [fooName]).1 [fooName] =
      ((removeAll c8Buf [fooName]).1, [Diag.methodNotFound fooName]) :=
  (C8_idempotent (removeAll c8Buf [fooName]).1 [fooName] (by decide)).1

/-- C9: the lexical invariant of the scan step.  From inside a string
opened by quote `q` the scan never stops (a brace cannot terminate the
scan there) and never changes the depth; with no pending escape, any
character other than `q` — a different quote, a brace, anything — leaves
the scan inside the same string; an escaped character never exits; the
identical unescaped quote exits to code; and from code state a string can
only be entered by one of the three quote characters, which becomes the
string's own delimiter. -/
theorem C9_lex_invariant :
    (∀ c bc q esc, scanStep c bc (some q) esc ≠ StepRes.stop) ∧
    (∀ c bc q esc bc2 s2 e2, scanStep c bc (some q) esc = StepRes.cont bc2 s2 e2 →
      bc2 = bc ∧ (s2 = some q ∨ s2 = none)) ∧
    (∀ c bc q, c ≠ q → scanStep c bc (some q) false =
      StepRes.cont bc (some q) (decide (c = bsC))) ∧
    (∀ c bc q, scanStep c bc (some q) true = StepRes.cont bc (some q) false) ∧
    (∀ q bc, q ≠ bsC → scanStep q bc (some q) false = StepRes.cont bc none false) ∧
    (∀ c bc bc2 s2 e2, scanStep c bc none false = StepRes.cont bc2 s2 e2 →
      s2 = none ∨ (s2 = some c ∧ (c = dq ∨ c = q1 ∨ c = bq))) := by
  refine ⟨?_, ?_, ?_, ?_, ?_, ?_⟩
  · intro c bc q esc
    simp only [scanStep]
    split_ifs <;> simp_all
  · intro c bc q esc bc2 s2 e2 h
    simp only [scanStep] at h
    split_ifs at h <;> simp_all
  · intro c bc q hne
    simp only [scanStep]
    split_ifs with h1 h2 h3 <;> simp_all [bsC]
  · intro c bc q
    simp [scanStep]
  · intro q bc h
    simp [scanStep, h]
  · intro c bc bc2 s2 e2 h
    simp only [scanStep] at h
    split_ifs at h <;> simp_all

/-- C9 (witness): inside a single-quoted string, the same unescaped single
quote exits to code state without touching the depth. -/
theorem C9_witness :
    scanStep q1 (3 : Int) (some q1) false = StepRes.cont 3 none false :=
  C9_lex_invariant.2.2.2.2.1 q1 3 (by decide)

end SnowFlow
